import Mathlib

/-!
A verification development for the SMS message-maximizer engine: character
classification against the GSM 03.38 alphabet, the Unicode-to-GSM
substitution table, the preserve-list override, the conversion loop, the
encoding/segment-count calculator, and the segment-limit enforcement policy.

Texts are modelled as lists of Unicode scalar values (one Lean Char per
Python str code point).  The canonical-decomposition step of the source
(NFD normalization followed by removing combining marks, from the external
Unicode character database) is passed in as an explicit parameter
nfd_strip : Char -> Option (List Char), where none models a normalization
failure; theorems about the conversion loop quantify over it wherever the
source logic does not depend on its values.
-/

set_option maxRecDepth 100000

def GSM_BASIC_CHARS : List Char := [
  '\u0040',
  '\u00A3',
  '\u0024',
  '\u00A5',
  '\u00E8',
  '\u00E9',
  '\u00F9',
  '\u00EC',
  '\u00F2',
  '\u00C7',
  '\u000A',
  '\u00D8',
  '\u00F8',
  '\u000D',
  '\u00C5',
  '\u00E5',
  '\u0394',
  '\u005F',
  '\u03A6',
  '\u0393',
  '\u039B',
  '\u03A9',
  '\u03A0',
  '\u03A8',
  '\u03A3',
  '\u0398',
  '\u039E',
  '\u001B',
  '\u00C6',
  '\u00E6',
  '\u00DF',
  '\u00C9',
  '\u0020',
  '\u0021',
  '\u0022',
  '\u0023',
  '\u00A4',
  '\u0025',
  '\u0026',
  '\u0027',
  '\u0028',
  '\u0029',
  '\u002A',
  '\u002B',
  '\u002C',
  '\u002D',
  '\u002E',
  '\u002F',
  '\u0030',
  '\u0031',
  '\u0032',
  '\u0033',
  '\u0034',
  '\u0035',
  '\u0036',
  '\u0037',
  '\u0038',
  '\u0039',
  '\u003A',
  '\u003B',
  '\u003C',
  '\u003D',
  '\u003E',
  '\u003F',
  '\u00A1',
  '\u0041',
  '\u0042',
  '\u0043',
  '\u0044',
  '\u0045',
  '\u0046',
  '\u0047',
  '\u0048',
  '\u0049',
  '\u004A',
  '\u004B',
  '\u004C',
  '\u004D',
  '\u004E',
  '\u004F',
  '\u0050',
  '\u0051',
  '\u0052',
  '\u0053',
  '\u0054',
  '\u0055',
  '\u0056',
  '\u0057',
  '\u0058',
  '\u0059',
  '\u005A',
  '\u00C4',
  '\u00D6',
  '\u00D1',
  '\u00DC',
  '\u00A7',
  '\u00BF',
  '\u0061',
  '\u0062',
  '\u0063',
  '\u0064',
  '\u0065',
  '\u0066',
  '\u0067',
  '\u0068',
  '\u0069',
  '\u006A',
  '\u006B',
  '\u006C',
  '\u006D',
  '\u006E',
  '\u006F',
  '\u0070',
  '\u0071',
  '\u0072',
  '\u0073',
  '\u0074',
  '\u0075',
  '\u0076',
  '\u0077',
  '\u0078',
  '\u0079',
  '\u007A',
  '\u00E4',
  '\u00F6',
  '\u00F1',
  '\u00FC',
  '\u00E0']

def GSM_EXTENDED_CHARS : List Char := ['\u000C', '\u005E', '\u007B', '\u007D', '\u005C', '\u005B', '\u007E', '\u005D', '\u007C', '\u20AC']

def PRESERVE_UNICODE_CHARS : List (List Char) := [
  [Char.ofNat 0x1F680],
  [Char.ofNat 0x1F4B0],
  ['\u2B50'],
  ['\u2764', '\uFE0F'],
  [Char.ofNat 0x1F389],
  [Char.ofNat 0x1F525],
  [Char.ofNat 0x1F4A1],
  ['\u2705'],
  ['\u274C'],
  ['\u26A1']]

def UNICODE_TO_GSM_MAP : List (Char × List Char) := [
  ('\u201C', ['\u0022']),
  ('\u201D', ['\u0022']),
  ('\u2018', ['\u0027']),
  ('\u2019', ['\u0027']),
  ('\u301E', ['\u0022']),
  ('\u00AB', ['\u0022']),
  ('\u00BB', ['\u0022']),
  ('\u2039', ['\u003C']),
  ('\u203A', ['\u003E']),
  ('\u02BA', ['\u0022']),
  ('\u02EE', ['\u0022']),
  ('\u201F', ['\u0022']),
  ('\u275D', ['\u0022']),
  ('\u275E', ['\u0022']),
  ('\u301D', ['\u0022']),
  ('\uFF02', ['\u0022']),
  ('\u02BB', ['\u0027']),
  ('\u02C8', ['\u0027']),
  ('\u02BC', ['\u0027']),
  ('\u02BD', ['\u0027']),
  ('\u02B9', ['\u0027']),
  ('\u201B', ['\u0027']),
  ('\uFF07', ['\u0027']),
  ('\u00B4', ['\u0027']),
  ('\u02CA', ['\u0027']),
  ('\u0060', ['\u0027']),
  ('\u02CB', ['\u0027']),
  ('\u275B', ['\u0027']),
  ('\u275C', ['\u0027']),
  ('\u201A', ['\u002C']),
  ('\u201E', ['\u0022']),
  ('\u2014', ['\u002D']),
  ('\u2013', ['\u002D']),
  ('\u2015', ['\u002D']),
  ('\u2010', ['\u002D']),
  ('\u2043', ['\u002D']),
  ('\u2017', ['\u005F']),
  ('\u23BC', ['\u002D']),
  ('\u23BD', ['\u002D']),
  ('\uFE63', ['\u002D']),
  ('\uFF0D', ['\u002D']),
  ('\u00F7', ['\u002F']),
  ('\u29F8', ['\u002F']),
  ('\u2044', ['\u002F']),
  ('\u2215', ['\u002F']),
  ('\uFF0F', ['\u002F']),
  ('\u29F9', ['\u005C']),
  ('\u29F5', ['\u005C']),
  ('\uFE68', ['\u005C']),
  ('\uFF3C', ['\u005C']),
  ('\u0332', ['\u005F']),
  ('\uFF3F', ['\u005F']),
  ('\u20D2', ['\u007C']),
  ('\u20D3', ['\u007C']),
  ('\u2223', ['\u007C']),
  ('\uFF5C', ['\u007C']),
  ('\u23B8', ['\u007C']),
  ('\u23B9', ['\u007C']),
  ('\u23D0', ['\u007C']),
  ('\u239C', ['\u007C']),
  ('\u239F', ['\u007C']),
  ('\u00BC', ['\u0031', '\u002F', '\u0034']),
  ('\u00BD', ['\u0031', '\u002F', '\u0032']),
  ('\u00BE', ['\u0033', '\u002F', '\u0034']),
  ('\u2026', ['\u002E', '\u002E', '\u002E']),
  ('\u2022', ['\u002A']),
  ('\u203C', ['\u0021', '\u0021']),
  ('\u204E', ['\u002A']),
  ('\u2217', ['\u002A']),
  ('\u229B', ['\u002A']),
  ('\u2722', ['\u002A']),
  ('\u2723', ['\u002A']),
  ('\u2724', ['\u002A']),
  ('\u2725', ['\u002A']),
  ('\u2731', ['\u002A']),
  ('\u2732', ['\u002A']),
  ('\u2733', ['\u002A']),
  ('\u273A', ['\u002A']),
  ('\u273B', ['\u002A']),
  ('\u273C', ['\u002A']),
  ('\u273D', ['\u002A']),
  ('\u2743', ['\u002A']),
  ('\u2749', ['\u002A']),
  ('\u274A', ['\u002A']),
  ('\u274B', ['\u002A']),
  ('\u29C6', ['\u002A']),
  ('\uFE61', ['\u002A']),
  ('\uFF0A', ['\u002A']),
  ('\uFE6B', ['\u0040']),
  ('\uFF20', ['\u0040']),
  ('\uFE69', ['\u0024']),
  ('\uFF04', ['\u0024']),
  ('\u01C3', ['\u0021']),
  ('\uFE15', ['\u0021']),
  ('\uFE57', ['\u0021']),
  ('\uFF01', ['\u0021']),
  ('\uFE5F', ['\u0023']),
  ('\uFF03', ['\u0023']),
  ('\uFE6A', ['\u0025']),
  ('\uFF05', ['\u0025']),
  ('\uFE60', ['\u0026']),
  ('\uFF06', ['\u0026']),
  ('\uFE50', ['\u002C']),
  ('\u3001', ['\u002C']),
  ('\uFE51', ['\u002C']),
  ('\uFF0C', ['\u002C']),
  ('\uFF64', ['\u002C']),
  ('\u3002', ['\u002E']),
  ('\uFE52', ['\u002E']),
  ('\uFF0E', ['\u002E']),
  ('\uFF61', ['\u002E']),
  ('\u02D0', ['\u003A']),
  ('\u02F8', ['\u003A']),
  ('\u2982', ['\u003A']),
  ('\uA789', ['\u003A']),
  ('\uFE13', ['\u003A']),
  ('\uFF1A', ['\u003A']),
  ('\u204F', ['\u003B']),
  ('\uFE14', ['\u003B']),
  ('\uFE54', ['\u003B']),
  ('\uFF1B', ['\u003B']),
  ('\uFE64', ['\u003C']),
  ('\uFF1C', ['\u003C']),
  ('\uFE65', ['\u003E']),
  ('\uFF1E', ['\u003E']),
  ('\uFE16', ['\u003F']),
  ('\uFE56', ['\u003F']),
  ('\uFF1F', ['\u003F']),
  ('\u2768', ['\u0028']),
  ('\u276A', ['\u0028']),
  ('\uFE59', ['\u0028']),
  ('\uFF08', ['\u0028']),
  ('\u27EE', ['\u0028']),
  ('\u2985', ['\u0028']),
  ('\u2769', ['\u0029']),
  ('\u276B', ['\u0029']),
  ('\uFE5A', ['\u0029']),
  ('\uFF09', ['\u0029']),
  ('\u27EF', ['\u0029']),
  ('\u2986', ['\u0029']),
  ('\u2774', ['\u007B']),
  ('\uFE5B', ['\u007B']),
  ('\uFF5B', ['\u007B']),
  ('\u2775', ['\u007D']),
  ('\uFE5C', ['\u007D']),
  ('\uFF5D', ['\u007D']),
  ('\uFF3B', ['\u005B']),
  ('\uFF3D', ['\u005D']),
  ('\u02D6', ['\u002B']),
  ('\uFE62', ['\u002B']),
  ('\uFF0B', ['\u002B']),
  ('\u02C6', ['\u005E']),
  ('\u0302', ['\u005E']),
  ('\uFF3E', ['\u005E']),
  ('\u1DCD', ['\u005E']),
  ('\u02DC', ['\u007E']),
  ('\u02F7', ['\u007E']),
  ('\u0303', ['\u007E']),
  ('\u0330', ['\u007E']),
  ('\u0334', ['\u007E']),
  ('\u223C', ['\u007E']),
  ('\uFF5E', ['\u007E']),
  ('\uFF10', ['\u0030']),
  ('\uFF11', ['\u0031']),
  ('\uFF12', ['\u0032']),
  ('\uFF13', ['\u0033']),
  ('\uFF14', ['\u0034']),
  ('\uFF15', ['\u0035']),
  ('\uFF16', ['\u0036']),
  ('\uFF17', ['\u0037']),
  ('\uFF18', ['\u0038']),
  ('\uFF19', ['\u0039']),
  ('\uFF21', ['\u0041']),
  ('\uFF22', ['\u0042']),
  ('\uFF23', ['\u0043']),
  ('\uFF24', ['\u0044']),
  ('\uFF25', ['\u0045']),
  ('\uFF26', ['\u0046']),
  ('\uFF27', ['\u0047']),
  ('\uFF28', ['\u0048']),
  ('\uFF29', ['\u0049']),
  ('\uFF2A', ['\u004A']),
  ('\uFF2B', ['\u004B']),
  ('\uFF2C', ['\u004C']),
  ('\uFF2D', ['\u004D']),
  ('\uFF2E', ['\u004E']),
  ('\uFF2F', ['\u004F']),
  ('\uFF30', ['\u0050']),
  ('\uFF31', ['\u0051']),
  ('\uFF32', ['\u0052']),
  ('\uFF33', ['\u0053']),
  ('\uFF34', ['\u0054']),
  ('\uFF35', ['\u0055']),
  ('\uFF36', ['\u0056']),
  ('\uFF37', ['\u0057']),
  ('\uFF38', ['\u0058']),
  ('\uFF39', ['\u0059']),
  ('\uFF3A', ['\u005A']),
  ('\u1D00', ['\u0041']),
  ('\u0299', ['\u0042']),
  ('\u1D04', ['\u0043']),
  ('\u1D05', ['\u0044']),
  ('\u1D07', ['\u0045']),
  ('\uA730', ['\u0046']),
  ('\u0262', ['\u0047']),
  ('\u029C', ['\u0048']),
  ('\u026A', ['\u0049']),
  ('\u1D0A', ['\u004A']),
  ('\u1D0B', ['\u004B']),
  ('\u029F', ['\u004C']),
  ('\u1D0D', ['\u004D']),
  ('\u0274', ['\u004E']),
  ('\u1D0F', ['\u004F']),
  ('\u1D18', ['\u0050']),
  ('\u0280', ['\u0052']),
  ('\uA731', ['\u0053']),
  ('\u1D1B', ['\u0054']),
  ('\u1D1C', ['\u0055']),
  ('\u1D20', ['\u0056']),
  ('\u1D21', ['\u0057']),
  ('\u028F', ['\u0059']),
  ('\u1D22', ['\u005A']),
  ('\u00A0', ['\u0020']),
  ('\u2000', ['\u0020']),
  ('\u2001', ['\u0020']),
  ('\u2002', ['\u0020']),
  ('\u2003', ['\u0020']),
  ('\u2004', ['\u0020']),
  ('\u2005', ['\u0020']),
  ('\u2006', ['\u0020']),
  ('\u2007', ['\u0020']),
  ('\u2008', ['\u0020']),
  ('\u2009', ['\u0020']),
  ('\u200A', ['\u0020']),
  ('\u200B', []),
  ('\u202F', ['\u0020']),
  ('\u205F', ['\u0020']),
  ('\u2028', ['\u0020']),
  ('\u2029', ['\u0020']),
  ('\u2060', []),
  ('\u3000', ['\u0020']),
  ('\uFEFF', []),
  ('\u2122', ['\u0054', '\u004D']),
  ('\u00A9', ['\u0028', '\u0043', '\u0029']),
  ('\u00AE', ['\u0028', '\u0052', '\u0029']),
  ('\u00B0', ['\u0064', '\u0065', '\u0067']),
  ('\u2264', ['\u003C', '\u003D']),
  ('\u2265', ['\u003E', '\u003D']),
  ('\u2260', ['\u0021', '\u003D']),
  ('\u00B1', ['\u002B', '\u002F', '\u002D'])]

/-- GSM 03.38 character classification: membership in the basic or the
extended set. -/
def is_gsm_character (c : Char) : Bool :=
  GSM_BASIC_CHARS.contains c || GSM_EXTENDED_CHARS.contains c

/-- The source applies is_gsm_character to a whole string in the
decomposition branch; a Python string belongs to a set of single-character
strings exactly when it is itself a single character of the set. -/
def is_gsm_string (s : List Char) : Bool :=
  match s with
  | [c] => is_gsm_character c
  | _ => false

/-- Encoding mode reported by the segment calculator. -/
inductive Encoding where
  | gsm7 : Encoding
  | ucs2 : Encoding
deriving DecidableEq

/-- A text forces UCS-2 exactly when some code point is outside ASCII
(the source tests this by attempting an ASCII encode). -/
def has_unicode (message : List Char) : Bool :=
  message.any (fun c => 127 < c.toNat)

/-- GSM-7 transmission-unit count: an extended character costs 2 units
(escape sequence), every other character costs 1. -/
def gsm7_length : List Char → Nat
  | [] => 0
  | c :: cs => (if GSM_EXTENDED_CHARS.contains c then 2 else 1) + gsm7_length cs

/-- Segment count and encoding for a text, as the source computes them:
UCS-2 when any code point is non-ASCII (70 single-segment capacity, 67 per
part otherwise), GSM-7 otherwise (160 single-segment capacity, 153 per part
otherwise, extended characters costing 2 units). -/
def calculate_segments (message : List Char) : Nat × Encoding :=
  if has_unicode message then
    (if message.length ≤ 70 then 1 else (message.length + 66) / 67, Encoding.ucs2)
  else
    (if gsm7_length message ≤ 160 then 1 else (gsm7_length message + 152) / 153,
      Encoding.gsm7)

/-- Index of the last occurrence of a character in a list, -1 when absent
(the semantics of Python str.rfind restricted to a single-character
needle). -/
def rfind : List Char → Char → Int
  | [], _ => -1
  | x :: xs, c =>
    let r := rfind xs c
    if 0 ≤ r then r + 1 else if x = c then 0 else -1

/-- The three-dot ellipsis appended by truncation. -/
def ellipsis : List Char := ['.', '.', '.']

/-- Truncate a message to the character budget derived from the segment
limit: 160 characters for one segment, 160 + (k-1)*153 for k segments.  A
message within budget is returned unchanged; otherwise it is cut to
budget - 3 characters, the cut retreats to the last space of that prefix
when the float test last_space > max_chars * 0.8 of the source holds, and
the ellipsis is appended.  The float test is modelled exactly by the
integer inequality 5 * last_space > 4 * max_chars: the double product
max_chars * 0.8 rounds to a value strictly between the two integers
around 0.8 * max_chars unless 5 divides max_chars, when it is exactly
0.8 * max_chars, so the strict comparison with an integer agrees for every
budget below 2 ^ 40.  The source is only ever called with a positive
segment limit, for which the natural-number subtraction below coincides
with Python integer arithmetic. -/
def truncate_message_to_segments (message : List Char) (max_segments : Nat) : List Char :=
  let max_chars : Nat := if max_segments = 1 then 160 else 160 + (max_segments - 1) * 153
  if message.length ≤ max_chars then message
  else
    let truncated := message.take (max_chars - 3)
    let last_space := rfind truncated ' '
    let truncated :=
      if 5 * last_space > 4 * (max_chars : Int) then truncated.take last_space.toNat
      else truncated
    truncated ++ ellipsis

/-- Enforcement mode of the segment-limit policy. -/
inductive SegmentLimitAction where
  | reject : SegmentLimitAction
  | truncate : SegmentLimitAction
  | warn : SegmentLimitAction
deriving DecidableEq

/-- Outcome of the segment-limit policy. -/
inductive PolicyResult where
  | Pass : List Char → Nat → Encoding → PolicyResult
  | Truncated : List Char → Nat → Encoding → Nat → PolicyResult
  | Rejected : Nat → Encoding → PolicyResult
deriving DecidableEq

/-- The segment-limit policy as the request handler implements it: pass
when the text fits the limit, otherwise reject, truncate and re-measure,
or pass with a warning, according to the action. -/
def enforce (text : List Char) (max_segments : Nat) (action : SegmentLimitAction) :
    PolicyResult :=
  let sa := calculate_segments text
  if sa.1 ≤ max_segments then PolicyResult.Pass text sa.1 sa.2
  else
    match action with
    | SegmentLimitAction.reject => PolicyResult.Rejected sa.1 sa.2
    | SegmentLimitAction.truncate =>
      let t := truncate_message_to_segments text max_segments
      let sb := calculate_segments t
      PolicyResult.Truncated t sb.1 sb.2 text.length
    | SegmentLimitAction.warn => PolicyResult.Pass text sa.1 sa.2

/-- One substitution record of the conversion outcome: the original
character (a string in the source, since the auto-preserve marker is the
string ALL_UNICODE), the replacement string, the zero-based position in
the input (-1 for the synthetic auto-preserve record), and the preserved
flag (false where the source record carries no such key). -/
structure Replacement where
  original : List Char
  replacement : List Char
  position : Int
  preserved : Bool
deriving DecidableEq

/-- Result of a conversion call: the converted text, the ordered
substitution records, input and output lengths, and the auto-preserve
flag. -/
structure ConversionOutcome where
  converted_message : List Char
  replacements : List Replacement
  original_length : Nat
  converted_length : Nat
  auto_preserved : Bool
deriving DecidableEq

/-- Output string contributed by one input character of the conversion
loop: a GSM-safe character is copied; with preservation enabled a
preserve-list member is copied; a substitution-table key yields its
replacement; otherwise the stripped canonical decomposition is used when
it differs from the character and is GSM-safe, and a question mark is the
final fallback (also when normalization fails). -/
def convertChar (nfd_strip : Char → Option (List Char)) (preserve_emojis : Bool)
    (c : Char) : List Char :=
  if is_gsm_character c then [c]
  else if preserve_emojis && PRESERVE_UNICODE_CHARS.contains [c] then [c]
  else
    match UNICODE_TO_GSM_MAP.lookup c with
    | some r => r
    | none =>
      match nfd_strip c with
      | some a => if a ≠ [c] ∧ is_gsm_string a = true then a else ['?']
      | none => ['?']

/-- Substitution record contributed by one input character at position i,
none for a GSM-safe character, mirroring the record construction of each
branch of the conversion loop. -/
def convertRecord (nfd_strip : Char → Option (List Char)) (preserve_emojis : Bool)
    (i : Nat) (c : Char) : Option Replacement :=
  if is_gsm_character c then none
  else if preserve_emojis && PRESERVE_UNICODE_CHARS.contains [c] then
    some ⟨[c], [c], (i : Int), true⟩
  else
    match UNICODE_TO_GSM_MAP.lookup c with
    | some r => some ⟨[c], r, (i : Int), false⟩
    | none =>
      match nfd_strip c with
      | some a =>
        if a ≠ [c] ∧ is_gsm_string a = true then some ⟨[c], a, (i : Int), false⟩
        else some ⟨[c], ['?'], (i : Int), false⟩
      | none => some ⟨[c], ['?'], (i : Int), false⟩

/-- The converted text assembled by the conversion loop, character by
character, left to right. -/
def convertText (nfd_strip : Char → Option (List Char)) (preserve_emojis : Bool) :
    List Char → List Char
  | [] => []
  | c :: cs => convertChar nfd_strip preserve_emojis c ++
      convertText nfd_strip preserve_emojis cs

/-- The substitution records assembled by the conversion loop, the first
argument tracking the position of the current character in the original
input. -/
def convertRecords (nfd_strip : Char → Option (List Char)) (preserve_emojis : Bool) :
    Nat → List Char → List Replacement
  | _, [] => []
  | i, c :: cs =>
    match convertRecord nfd_strip preserve_emojis i c with
    | some r => r :: convertRecords nfd_strip preserve_emojis (i + 1) cs
    | none => convertRecords nfd_strip preserve_emojis (i + 1) cs

/-- The conversion loop of convert_to_gsm without the auto-preserve
short-circuit. -/
def convert_core (nfd_strip : Char → Option (List Char)) (message : List Char)
    (preserve_emojis : Bool) : ConversionOutcome :=
  { converted_message := convertText nfd_strip preserve_emojis message
    replacements := convertRecords nfd_strip preserve_emojis 0 message
    original_length := message.length
    converted_length := (convertText nfd_strip preserve_emojis message).length
    auto_preserved := false }

/-- Convert Unicode characters of a message to GSM-compatible
alternatives.  When a segment limit is given and the unmodified message
already fits it, the message is returned verbatim with a single synthetic
record and the auto-preserve flag set; otherwise the conversion loop
runs. -/
def convert_to_gsm (nfd_strip : Char → Option (List Char)) (message : List Char)
    (preserve_emojis : Bool) (max_segments : Option Nat) : ConversionOutcome :=
  match max_segments with
  | some m =>
    if (calculate_segments message).1 ≤ m then
      { converted_message := message
        replacements := [⟨"ALL_UNICODE".data, "PRESERVED".data, -1, true⟩]
        original_length := message.length
        converted_length := message.length
        auto_preserved := true }
    else convert_core nfd_strip message preserve_emojis
  | none => convert_core nfd_strip message preserve_emojis

/-- The NFD-and-strip-combining-marks transform restricted to characters
that are their own canonical decomposition and are not combining marks;
this is the value of the Unicode-database transform on every concrete
character appearing in the closed statements below. -/
def nfd_strip_id : Char → Option (List Char) := fun c => some [c]

/-- Truncation as claim C7 words it, for comparison with the source
function: same budget, same budget - 3 cut, but with the word-boundary
rule taken literally — the cut moves back to the nearest preceding space
whenever that space is not more than 20 percent of the budget back from
the cut point. -/
def truncate_per_claim (message : List Char) (max_segments : Nat) : List Char :=
  let max_chars : Nat := if max_segments = 1 then 160 else 160 + (max_segments - 1) * 153
  if message.length ≤ max_chars then message
  else
    let truncated := message.take (max_chars - 3)
    let last_space := rfind truncated ' '
    let truncated :=
      if 0 ≤ last_space ∧ 5 * ((max_chars : Int) - 3 - last_space) ≤ (max_chars : Int) then
        truncated.take last_space.toNat
      else truncated
    truncated ++ ellipsis

theorem gsm7_length_append (l1 l2 : List Char) :
    gsm7_length (l1 ++ l2) = gsm7_length l1 + gsm7_length l2 := by
  induction l1 with
  | nil => simp [gsm7_length]
  | cons c cs ih =>
    show (if GSM_EXTENDED_CHARS.contains c then 2 else 1) + gsm7_length (cs ++ l2) =
      ((if GSM_EXTENDED_CHARS.contains c then 2 else 1) + gsm7_length cs) + gsm7_length l2
    rw [ih]
    omega

theorem length_le_gsm7_length (l : List Char) : l.length ≤ gsm7_length l := by
  induction l with
  | nil => simp [gsm7_length]
  | cons c cs ih =>
    simp only [gsm7_length, List.length_cons]
    split <;> omega

theorem gsm7_length_le_two_mul (l : List Char) : gsm7_length l ≤ 2 * l.length := by
  induction l with
  | nil => simp [gsm7_length]
  | cons c cs ih =>
    simp only [gsm7_length, List.length_cons]
    split <;> omega

theorem rfind_neg_of_not_mem (l : List Char) (c : Char)
    (h : ∀ j : Nat, l.get? j ≠ some c) : rfind l c = -1 := by
  induction l with
  | nil => rfl
  | cons x xs ih =>
    have hx : x ≠ c := by
      intro he
      exact h 0 (by simp [he])
    have hxs : rfind xs c = -1 := ih (fun j => h (j + 1))
    simp [rfind, hxs, hx]

theorem rfind_nonneg_spec (l : List Char) (c : Char) (h : 0 ≤ rfind l c) :
    l.get? (rfind l c).toNat = some c := by
  induction l with
  | nil => simp [rfind] at h
  | cons x xs ih =>
    by_cases hr : 0 ≤ rfind xs c
    · have hs := ih hr
      have he : rfind (x :: xs) c = rfind xs c + 1 := by
        simp [rfind, hr]
      rw [he]
      have ht : (rfind xs c + 1).toNat = (rfind xs c).toNat + 1 := by omega
      rw [ht]
      simpa using hs
    · by_cases hx : x = c
      · have he : rfind (x :: xs) c = 0 := by
          simp [rfind, hr, hx]
        rw [he]
        simp [hx]
      · have he : rfind (x :: xs) c = -1 := by
          simp [rfind, hr, hx]
        rw [he] at h
        omega

theorem rfind_eq_of_last (l : List Char) (c : Char) (i : Nat)
    (h1 : l.get? i = some c) (h2 : ∀ j : Nat, i < j → l.get? j ≠ some c) :
    rfind l c = (i : Int) := by
  induction l generalizing i with
  | nil => simp at h1
  | cons x xs ih =>
    cases i with
    | zero =>
      have hx : x = c := by simpa using h1
      have hxs : rfind xs c = -1 :=
        rfind_neg_of_not_mem xs c (fun j => h2 (j + 1) (Nat.succ_pos j))
      simp [rfind, hxs, hx]
    | succ i =>
      have hxs : rfind xs c = (i : Int) :=
        ih i (by simpa using h1) (fun j hj => by
          have := h2 (j + 1) (by omega)
          simpa using this)
      have hr : 0 ≤ rfind xs c := by omega
      simp [rfind, hxs, hr]

theorem lookup_mem_of_eq_some {c : Char} {r : List Char}
    (h : UNICODE_TO_GSM_MAP.lookup c = some r) : (c, r) ∈ UNICODE_TO_GSM_MAP := by
  generalize hl : UNICODE_TO_GSM_MAP = l at h
  clear hl
  induction l with
  | nil => simp [List.lookup] at h
  | cons p t ih =>
    rw [List.lookup] at h
    split at h
    · rename_i hbeq
      cases h
      have hc : c = p.1 := beq_iff_eq.1 hbeq
      have hp : (c, p.2) = p := by rw [hc]
      rw [hp]
      exact List.mem_cons_self p t
    · exact List.mem_cons_of_mem _ (ih h)

theorem map_values_gsm :
    ∀ p ∈ UNICODE_TO_GSM_MAP, ∀ ch ∈ p.2, is_gsm_character ch = true := by
  decide

theorem map_values_ascii : ∀ p ∈ UNICODE_TO_GSM_MAP, ∀ ch ∈ p.2, ch.toNat ≤ 127 := by
  decide

theorem is_gsm_string_spec {s : List Char} (h : is_gsm_string s = true) :
    ∃ ch, s = [ch] ∧ is_gsm_character ch = true := by
  match s with
  | [ch] => exact ⟨ch, rfl, h⟩
  | [] => simp [is_gsm_string] at h
  | a :: b :: t => simp [is_gsm_string] at h

theorem convertChar_mem_cases (nfd : Char → Option (List Char)) (pres : Bool)
    (x ch : Char) (h : ch ∈ convertChar nfd pres x) :
    is_gsm_character ch = true ∨
      (pres = true ∧ [x] ∈ PRESERVE_UNICODE_CHARS ∧ ch = x) := by
  unfold convertChar at h
  split at h
  · rename_i hx
    left
    have : ch = x := by simpa using h
    rw [this]
    exact hx
  · split at h
    · rename_i hp
      right
      have hch : ch = x := by simpa using h
      have hand := Bool.and_eq_true_iff.1 hp
      exact ⟨hand.1, List.elem_iff.1 hand.2, hch⟩
    · split at h
      · rename_i r hr
        left
        exact map_values_gsm _ (lookup_mem_of_eq_some hr) ch h
      · split at h
        · rename_i a ha
          split at h
          · rename_i hg
            left
            obtain ⟨ch2, he, hgsm⟩ := is_gsm_string_spec hg.2
            rw [he] at h
            have : ch = ch2 := by simpa using h
            rw [this]
            exact hgsm
          · left
            have : ch = '?' := by simpa using h
            rw [this]
            decide
        · left
          have : ch = '?' := by simpa using h
          rw [this]
          decide

theorem mem_convertText {nfd : Char → Option (List Char)} {pres : Bool} {ch : Char} :
    ∀ {msg : List Char}, ch ∈ convertText nfd pres msg →
      ∃ x ∈ msg, ch ∈ convertChar nfd pres x := by
  intro msg
  induction msg with
  | nil => intro h; simp [convertText] at h
  | cons c cs ih =>
    intro h
    rcases List.mem_append.1 h with h1 | h2
    · exact ⟨c, List.mem_cons_self c cs, h1⟩
    · obtain ⟨x, hx, hc⟩ := ih h2
      exact ⟨x, List.mem_cons_of_mem c hx, hc⟩

theorem convertChar_of_gsm {nfd : Char → Option (List Char)} {pres : Bool} {c : Char}
    (h : is_gsm_character c = true) : convertChar nfd pres c = [c] := by
  unfold convertChar
  rw [if_pos h]

theorem convertRecord_of_gsm {nfd : Char → Option (List Char)} {pres : Bool} {c : Char}
    (i : Nat) (h : is_gsm_character c = true) : convertRecord nfd pres i c = none := by
  unfold convertRecord
  rw [if_pos h]

theorem convertText_of_all_gsm {nfd : Char → Option (List Char)} {pres : Bool} :
    ∀ {t : List Char}, (∀ ch ∈ t, is_gsm_character ch = true) →
      convertText nfd pres t = t := by
  intro t
  induction t with
  | nil => intro _; rfl
  | cons c cs ih =>
    intro h
    show convertChar nfd pres c ++ convertText nfd pres cs = c :: cs
    rw [convertChar_of_gsm (h c (List.mem_cons_self c cs)),
      ih (fun ch hch => h ch (List.mem_cons_of_mem c hch))]
    rfl

theorem convertRecords_of_all_gsm {nfd : Char → Option (List Char)} {pres : Bool} :
    ∀ {t : List Char} (i : Nat), (∀ ch ∈ t, is_gsm_character ch = true) →
      convertRecords nfd pres i t = [] := by
  intro t
  induction t with
  | nil => intro _ _; rfl
  | cons c cs ih =>
    intro i h
    show convertRecords nfd pres i (c :: cs) = []
    rw [convertRecords, convertRecord_of_gsm i (h c (List.mem_cons_self c cs))]
    exact ih (i + 1) (fun ch hch => h ch (List.mem_cons_of_mem c hch))

theorem convertRecord_mem_convertRecords {nfd : Char → Option (List Char)} {pres : Bool} :
    ∀ (msg : List Char) (i0 i : Nat) (c : Char) (r : Replacement),
      msg.get? i = some c → convertRecord nfd pres (i0 + i) c = some r →
      r ∈ convertRecords nfd pres i0 msg := by
  intro msg
  induction msg with
  | nil => intro i0 i c r hg _; simp at hg
  | cons x xs ih =>
    intro i0 i c r hg hr
    cases i with
    | zero =>
      have hx : x = c := by simpa using hg
      have hr0 : convertRecord nfd pres i0 c = some r := by simpa using hr
      rw [convertRecords, hx]
      simp only [hr0]
      exact List.mem_cons_self r _
    | succ i =>
      have hg2 : xs.get? i = some c := by simpa using hg
      have hr2 : convertRecord nfd pres ((i0 + 1) + i) c = some r := by
        have : (i0 + 1) + i = i0 + (i + 1) := by omega
        rw [this]
        exact hr
      have hmem := ih (i0 + 1) i c r hg2 hr2
      rw [convertRecords]
      split
      · exact List.mem_cons_of_mem _ hmem
      · exact hmem

/-- Claim C3: for every text the segment count is 1 when the unit total is at
most the single-segment capacity (160 GSM-7 units, extended characters
costing 2; 70 UCS-2 characters), and otherwise the integer ceiling of
units over 153 (GSM-7) or 67 (UCS-2) — stated both as the source's
rounding expression and by the two-sided ceiling characterization. -/
theorem calculate_segments_ceiling_formula (message : List Char) :
    (has_unicode message = false →
      (calculate_segments message).2 = Encoding.gsm7 ∧
      (gsm7_length message ≤ 160 → (calculate_segments message).1 = 1) ∧
      (160 < gsm7_length message →
        (calculate_segments message).1 = (gsm7_length message + 152) / 153 ∧
        gsm7_length message ≤ 153 * (calculate_segments message).1 ∧
        153 * ((calculate_segments message).1 - 1) < gsm7_length message)) ∧
    (has_unicode message = true →
      (calculate_segments message).2 = Encoding.ucs2 ∧
      (message.length ≤ 70 → (calculate_segments message).1 = 1) ∧
      (70 < message.length →
        (calculate_segments message).1 = (message.length + 66) / 67 ∧
        message.length ≤ 67 * (calculate_segments message).1 ∧
        67 * ((calculate_segments message).1 - 1) < message.length)) := by
  constructor
  · intro h
    simp only [calculate_segments, h, Bool.false_eq_true, if_false]
    refine ⟨trivial, fun hle => by simp [hle], fun hlt => ?_⟩
    rw [if_neg (by omega)]
    refine ⟨rfl, ?_, ?_⟩ <;> omega
  · intro h
    simp only [calculate_segments, h, if_true]
    refine ⟨trivial, fun hle => by simp [hle], fun hlt => ?_⟩
    rw [if_neg (by omega)]
    refine ⟨rfl, ?_, ?_⟩ <;> omega

/-- Claim C3 witness: 200 basic characters are GSM-7 encoded and segment into
the ceiling of 200 / 153, which is 2. -/
theorem calculate_segments_ceiling_formula_witness :
    (calculate_segments (List.replicate 200 'A')).2 = Encoding.gsm7 ∧
    (calculate_segments (List.replicate 200 'A')).1 =
      (gsm7_length (List.replicate 200 'A') + 152) / 153 ∧
    (calculate_segments (List.replicate 200 'A')).1 = 2 := by
  have h := (calculate_segments_ceiling_formula (List.replicate 200 'A')).1 (by decide)
  refine ⟨h.1, (h.2.2 (by decide)).1, ?_⟩
  rw [(h.2.2 (by decide)).1]
  decide

/-- Claim C6: appending one character to a text never decreases the segment
count computed by the calculator, across all four combinations of
encoding mode before and after the append. -/
theorem calculate_segments_append_mono (message : List Char) (c : Char) :
    (calculate_segments message).1 ≤ (calculate_segments (message ++ [c])).1 := by
  have hg : gsm7_length (message ++ [c]) =
      gsm7_length message + (if GSM_EXTENDED_CHARS.contains c then 2 else 1) := by
    rw [gsm7_length_append]
    show _ = gsm7_length message + ((if GSM_EXTENDED_CHARS.contains c then 2 else 1) + 0)
    rfl
  have hL : (message ++ [c]).length = message.length + 1 := by simp
  have hu : has_unicode (message ++ [c]) =
      (has_unicode message || decide (127 < c.toNat)) := by
    simp [has_unicode, List.any_append]
  have h1 := length_le_gsm7_length message
  have h2 := gsm7_length_le_two_mul message
  rcases hm : has_unicode message with _ | _
  · rcases hc : decide (127 < c.toNat) with _ | _
    · have hu2 : has_unicode (message ++ [c]) = false := by rw [hu, hm, hc]; rfl
      rcases hext : GSM_EXTENDED_CHARS.contains c with _ | _ <;>
        simp only [calculate_segments, hm, hu2, Bool.false_eq_true, if_false, hg, hext,
          if_true, hL] <;>
        (split <;> split <;> omega)
    · have hu2 : has_unicode (message ++ [c]) = true := by rw [hu, hm, hc]; rfl
      simp only [calculate_segments, hm, hu2, Bool.false_eq_true, if_false, if_true, hL]
      split <;> split <;> omega
  · have hu2 : has_unicode (message ++ [c]) = true := by rw [hu, hm]; rfl
    simp only [calculate_segments, hm, hu2, if_true, hL]
    split <;> split <;> omega

/-- Claim C2 (failing input): on 400 basic characters with a limit of 2 and the
truncate action, the policy truncates to the 313-character budget, yet the
recomputed GSM-7 segment count of the 313-character result is the ceiling
of 313 / 153, which is 3, exceeding the limit of 2 — the truncation
budget of 160 + 153 per extra segment is inconsistent with the
calculator's 153-per-part formula for multipart messages. -/
theorem enforce_truncate_exceeds_limit_at_400_basic :
    enforce (List.replicate 400 'A') 2 SegmentLimitAction.truncate =
      PolicyResult.Truncated (List.replicate 310 'A' ++ ellipsis) 3 Encoding.gsm7 400 ∧
    (List.replicate 310 'A' ++ ellipsis).length = 313 := by
  exact ⟨by decide, by decide⟩

theorem get_replicate_ne {a b : Char} (h : a ≠ b) (n i : Nat) :
    (List.replicate n a).get? i ≠ some b := by
  intro hc
  have hm := List.get?_mem hc
  exact h ((List.mem_replicate.1 hm).2.symm)

/-- Claim C7 counterexample: with one allowed segment (budget 160) and the
input of 128 basic characters, a space, and 32 more characters, the space
sits 29 characters back from the cut point 157, which is not more than
20 percent of the budget, so the claim prescribes breaking at the space;
the source keeps the full 157-character cut because its test is the
strict comparison space index > 0.8 * budget (128 > 128 fails). -/
theorem truncate_word_boundary_differs_from_claim :
    truncate_message_to_segments
        (List.replicate 128 'A' ++ [' '] ++ List.replicate 32 'B') 1 ≠
      truncate_per_claim
        (List.replicate 128 'A' ++ [' '] ++ List.replicate 32 'B') 1 := by
  decide

theorem truncate_unfold (message : List Char) (k : Nat) :
    truncate_message_to_segments message k =
      if message.length ≤ (if k = 1 then 160 else 160 + (k - 1) * 153) then message
      else
        (if 5 * rfind (message.take ((if k = 1 then 160 else 160 + (k - 1) * 153) - 3)) ' ' >
            4 * (((if k = 1 then 160 else 160 + (k - 1) * 153) : Nat) : Int) then
          (message.take ((if k = 1 then 160 else 160 + (k - 1) * 153) - 3)).take
            (rfind (message.take ((if k = 1 then 160 else 160 + (k - 1) * 153) - 3)) ' ').toNat
        else message.take ((if k = 1 then 160 else 160 + (k - 1) * 153) - 3)) ++ ellipsis :=
  rfl

/-- Claim C7 (amended): for a positive segment limit the character budget is
160 for one segment and 160 + (limit - 1) * 153 otherwise; a text whose
length fits the budget is returned unchanged; an over-budget text is cut
to budget - 3 characters and the ellipsis appended, with the cut moving
back to the nearest preceding space only when that space's index is
strictly greater than 80 percent of the budget (the amendment: the source
compares the space index against 0.8 * budget, not the distance from the
cut point against 20 percent of the budget). -/
theorem truncate_budget_cut_and_space_rule (message : List Char) (k b : Nat)
    (hk : 1 ≤ k) (hb : b = if k = 1 then 160 else 160 + (k - 1) * 153) :
    (message.length ≤ b → truncate_message_to_segments message k = message) ∧
    (b < message.length →
      ((∀ i : Nat, 4 * b < 5 * i → (message.take (b - 3)).get? i ≠ some ' ') →
        truncate_message_to_segments message k = message.take (b - 3) ++ ellipsis) ∧
      (∀ i : Nat, (message.take (b - 3)).get? i = some ' ' →
        (∀ j : Nat, i < j → (message.take (b - 3)).get? j ≠ some ' ') →
        4 * b < 5 * i →
        truncate_message_to_segments message k =
          (message.take (b - 3)).take i ++ ellipsis)) := by
  have hu := truncate_unfold message k
  rw [← hb] at hu
  rw [hu]
  constructor
  · intro h
    rw [if_pos h]
  · intro h
    rw [if_neg (by omega)]
    constructor
    · intro hno
      by_cases hr : 0 ≤ rfind (message.take (b - 3)) ' '
      · have hspec := rfind_nonneg_spec (message.take (b - 3)) ' ' hr
        have hnlt : ¬ 4 * b < 5 * (rfind (message.take (b - 3)) ' ').toNat :=
          fun hlt => hno _ hlt hspec
        rw [if_neg (by omega)]
      · rw [if_neg (by omega)]
    · intro i hsp hlast hgt
      have hr : rfind (message.take (b - 3)) ' ' = (i : Int) :=
        rfind_eq_of_last _ _ i hsp hlast
      rw [hr]
      rw [if_pos (by omega)]
      simp

/-- Claim C7 witness: 170 basic characters with a one-segment limit are over
the 160-character budget and contain no space, so the result is the
157-character cut with the ellipsis appended. -/
theorem truncate_budget_cut_and_space_rule_witness :
    truncate_message_to_segments (List.replicate 170 'A') 1 =
      (List.replicate 170 'A').take (160 - 3) ++ ellipsis := by
  refine ((truncate_budget_cut_and_space_rule (List.replicate 170 'A') 1 160 (by decide)
    (by decide)).2 (by decide)).1 ?_
  intro i hi
  have ht : (List.replicate 170 'A').take (160 - 3) = List.replicate 157 'A' := by decide
  rw [ht]
  exact get_replicate_ne (by decide) 157 i

/-- Claim C1 counterexample: with a segment limit of 1 the auto-preserve
short-circuit returns the single hiragana character verbatim even though
preservation is disabled and the character is not GSM-safe, so the
converted text is not made of GSM-safe characters only. -/
theorem convert_auto_preserve_emits_non_gsm :
    (convert_to_gsm nfd_strip_id ['あ'] false (some 1)).converted_message =
      ['あ'] ∧
    is_gsm_character 'あ' = false := by
  exact ⟨by decide, by decide⟩

theorem convert_not_auto_output_cases (nfd : Char → Option (List Char))
    (message : List Char) (pres : Bool) (ms : Option Nat)
    (h : (convert_to_gsm nfd message pres ms).auto_preserved = false) :
    ∀ ch ∈ (convert_to_gsm nfd message pres ms).converted_message,
      is_gsm_character ch = true ∨
      (pres = true ∧ [ch] ∈ PRESERVE_UNICODE_CHARS ∧ ch ∈ message) := by
  have hcore : ∀ ch ∈ (convert_core nfd message pres).converted_message,
      is_gsm_character ch = true ∨
      (pres = true ∧ [ch] ∈ PRESERVE_UNICODE_CHARS ∧ ch ∈ message) := by
    intro ch hch
    obtain ⟨x, hx, hc⟩ := mem_convertText hch
    rcases convertChar_mem_cases nfd pres x ch hc with hg | ⟨hp, hm, he⟩
    · exact Or.inl hg
    · exact Or.inr ⟨hp, he ▸ hm, he ▸ hx⟩
  match ms with
  | none => exact hcore
  | some m =>
    by_cases hfit : (calculate_segments message).1 ≤ m
    · exfalso
      have : (convert_to_gsm nfd message pres (some m)).auto_preserved = true := by
        simp [convert_to_gsm, hfit]
      rw [h] at this
      cases this
    · have he : convert_to_gsm nfd message pres (some m) =
          convert_core nfd message pres := by
        simp [convert_to_gsm, hfit]
      rw [he]
      exact hcore

/-- Claim C1 (amended): whenever the auto-preserve short-circuit did not fire,
every character of the converted text is GSM-safe, except that with
preservation enabled a preserve-list character of the input may survive
verbatim; quantified over every value of the canonical-decomposition
transform, since the branch guard re-checks GSM safety. -/
theorem convert_output_gsm_or_preserved (nfd : Char → Option (List Char))
    (message : List Char) (pres : Bool) (ms : Option Nat)
    (h : (convert_to_gsm nfd message pres ms).auto_preserved = false) :
    ∀ ch ∈ (convert_to_gsm nfd message pres ms).converted_message,
      is_gsm_character ch = true ∨
      (pres = true ∧ [ch] ∈ PRESERVE_UNICODE_CHARS ∧ ch ∈ message) :=
  convert_not_auto_output_cases nfd message pres ms h

/-- Claim C1 witness: converting a left double quotation mark with preservation
disabled and no segment limit yields the plain double quote, a GSM-safe
character. -/
theorem convert_output_gsm_or_preserved_witness :
    is_gsm_character '\x22' = true ∨
    (false = true ∧ ['\x22'] ∈ PRESERVE_UNICODE_CHARS ∧ '\x22' ∈ ['“']) :=
  convert_output_gsm_or_preserved nfd_strip_id ['“'] false none (by decide)
    '\x22' (by decide)

/-- Claim C4 counterexample: the Greek capital delta is GSM-safe, so conversion
with preservation disabled copies it unchanged with no record, yet the
calculator's encoding detection tests the ASCII range and reports UCS-2
for the converted text. -/
theorem convert_gsm_delta_reports_ucs2 :
    (calculate_segments
      (convert_to_gsm nfd_strip_id ['Δ'] false none).converted_message).2 =
      Encoding.ucs2 ∧
    (convert_to_gsm nfd_strip_id ['Δ'] false none).replacements = [] := by
  exact ⟨by decide, by decide⟩

/-- Claim C4 (amended): the encoding reported for the converted text is GSM-7
unless the converted text contains a non-ASCII character, and every
non-ASCII character of the converted text is either GSM-safe (a non-ASCII
member of the basic or extended set) or a preserved preserve-list
character of the input. -/
theorem convert_encoding_gsm7_unless_non_ascii (nfd : Char → Option (List Char))
    (message : List Char) (pres : Bool) :
    ((∀ ch ∈ (convert_to_gsm nfd message pres none).converted_message,
        ch.toNat ≤ 127) →
      (calculate_segments
        (convert_to_gsm nfd message pres none).converted_message).2 =
        Encoding.gsm7) ∧
    (∀ ch ∈ (convert_to_gsm nfd message pres none).converted_message,
      127 < ch.toNat →
      is_gsm_character ch = true ∨
      (pres = true ∧ [ch] ∈ PRESERVE_UNICODE_CHARS ∧ ch ∈ message)) := by
  constructor
  · intro hbound
    have hhu : has_unicode
        (convert_to_gsm nfd message pres none).converted_message = false := by
      rw [has_unicode, List.any_eq_false]
      intro c hc
      simpa using Nat.not_lt.2 (hbound c hc)
    simp [calculate_segments, hhu]
  · intro ch hch _
    exact convert_not_auto_output_cases nfd message pres none rfl ch hch

/-- Claim C4 witness: an all-ASCII conversion result is reported as GSM-7. -/
theorem convert_encoding_gsm7_unless_non_ascii_witness :
    (calculate_segments
      (convert_to_gsm nfd_strip_id ['“', 'x'] false none).converted_message).2 =
      Encoding.gsm7 :=
  (convert_encoding_gsm7_unless_non_ascii nfd_strip_id ['“', 'x'] false).1 (by decide)

/-- Claim C5 counterexample: converting the horizontal ellipsis once produces
the three-period text with one substitution record and input length 1;
converting that output again produces the same text but with no records
and input length 3, so the two conversion outcomes are not equal. -/
theorem convert_outcome_not_idempotent_at_ellipsis :
    convert_to_gsm nfd_strip_id
        ((convert_to_gsm nfd_strip_id ['…'] false none).converted_message)
        false none ≠
      convert_to_gsm nfd_strip_id ['…'] false none := by
  decide

/-- Claim C5 (amended): re-converting the converted text of a
preservation-disabled, unlimited conversion is a no-op on the text — the
second conversion returns the same text and makes no substitutions (the
full outcomes can still differ in their record lists and input
lengths). -/
theorem convert_text_idempotent (nfd : Char → Option (List Char))
    (message : List Char) :
    (convert_to_gsm nfd
        ((convert_to_gsm nfd message false none).converted_message)
        false none).converted_message =
      (convert_to_gsm nfd message false none).converted_message ∧
    (convert_to_gsm nfd
        ((convert_to_gsm nfd message false none).converted_message)
        false none).replacements = [] := by
  have hgsm : ∀ ch ∈ (convert_to_gsm nfd message false none).converted_message,
      is_gsm_character ch = true := by
    intro ch hch
    obtain ⟨x, hx, hc⟩ := mem_convertText hch
    rcases convertChar_mem_cases nfd false x ch hc with hg | ⟨hp, _, _⟩
    · exact hg
    · cases hp
  constructor
  · show convertText nfd false _ = _
    exact convertText_of_all_gsm hgsm
  · show convertRecords nfd false 0 _ = []
    exact convertRecords_of_all_gsm 0 hgsm

/-- Claim C9: the conversion loop is total, and a character that is not
GSM-safe, not preserved, absent from the substitution table, and whose
stripped canonical decomposition (including a failed normalization,
modelled as none) passes nothing GSM-safe and different, contributes the
question-mark placeholder to the output together with an informational
non-preserved record at its input position. -/
theorem convert_unmappable_fallback (nfd : Char → Option (List Char))
    (message : List Char) (pres : Bool) (i : Nat) (c : Char)
    (hget : message.get? i = some c)
    (h1 : is_gsm_character c = false)
    (h2 : (pres && PRESERVE_UNICODE_CHARS.contains [c]) = false)
    (h3 : UNICODE_TO_GSM_MAP.lookup c = none)
    (h4 : ∀ a, nfd c = some a → ¬(a ≠ [c] ∧ is_gsm_string a = true)) :
    convertChar nfd pres c = ['?'] ∧
    Replacement.mk [c] ['?'] (i : Int) false ∈
      (convert_to_gsm nfd message pres none).replacements := by
  have hrec : convertRecord nfd pres i c = some ⟨[c], ['?'], (i : Int), false⟩ := by
    unfold convertRecord
    rw [if_neg (by rw [h1]; exact Bool.false_ne_true), if_neg (by rw [h2]; exact Bool.false_ne_true), h3]
    rcases ha : nfd c with _ | a
    · rfl
    · dsimp only
      rw [if_neg (h4 a ha)]
  constructor
  · unfold convertChar
    rw [if_neg (by rw [h1]; exact Bool.false_ne_true), if_neg (by rw [h2]; exact Bool.false_ne_true), h3]
    rcases ha : nfd c with _ | a
    · rfl
    · dsimp only
      rw [if_neg (h4 a ha)]
  · show _ ∈ convertRecords nfd pres 0 message
    exact convertRecord_mem_convertRecords message 0 i c _ hget (by simpa using hrec)

/-- Claim C9 witness: the hiragana character has no substitution and is its own
decomposition, so even with preservation enabled it becomes a question
mark with a record at position 0. -/
theorem convert_unmappable_fallback_witness :
    convertChar nfd_strip_id true 'あ' = ['?'] ∧
    Replacement.mk ['あ'] ['?'] (0 : Int) false ∈
      (convert_to_gsm nfd_strip_id ['あ'] true none).replacements := by
  have h := convert_unmappable_fallback nfd_strip_id ['あ'] true 0 'あ'
    (by decide) (by decide) (by decide) (by decide)
    (fun a ha => by
      simp only [nfd_strip_id, Option.some.injEq] at ha
      subst ha
      decide)
  simpa using h

/-- Claim C10: the preserve-list entry for the heart emoji is the two-code-point
sequence U+2764 U+FE0F, while the loop compares one code point at a time,
so neither code point matches the preserve list; in any input containing
the sequence with preservation enabled, both code points are replaced by
question marks with non-preserved records, provided each is its own
stripped canonical decomposition (a fact of the Unicode database stated
as a hypothesis on the transform). -/
theorem heart_emoji_never_preserved (nfd : Char → Option (List Char))
    (pre post : List Char)
    (h1 : nfd '\u2764' = some ['\u2764'])
    (h2 : nfd '\uFE0F' = some ['\uFE0F']) :
    (['\u2764'] ∉ PRESERVE_UNICODE_CHARS ∧
      ['\uFE0F'] ∉ PRESERVE_UNICODE_CHARS ∧
      ['\u2764', '\uFE0F'] ∈ PRESERVE_UNICODE_CHARS) ∧
    Replacement.mk ['\u2764'] ['?'] (pre.length : Int) false ∈
      (convert_to_gsm nfd (pre ++ '\u2764' :: '\uFE0F' :: post) true
        none).replacements ∧
    Replacement.mk ['\uFE0F'] ['?'] ((pre.length + 1 : Nat) : Int) false ∈
      (convert_to_gsm nfd (pre ++ '\u2764' :: '\uFE0F' :: post) true
        none).replacements := by
  refine ⟨⟨by decide, by decide, by decide⟩, ?_, ?_⟩
  · have hget : (pre ++ '\u2764' :: '\uFE0F' :: post).get? pre.length =
        some '\u2764' := by
      rw [List.get?_append_right (Nat.le_refl pre.length)]
      simp
    have hrec : convertRecord nfd true pre.length '\u2764' =
        some ⟨['\u2764'], ['?'], (pre.length : Int), false⟩ := by
      unfold convertRecord
      rw [if_neg (by decide), if_neg (by decide)]
      have h3 : UNICODE_TO_GSM_MAP.lookup '\u2764' = none := by decide
      rw [h3]
      dsimp only
      rw [h1]
      dsimp only
      rw [if_neg (by decide)]
    show _ ∈ convertRecords nfd true 0 _
    exact convertRecord_mem_convertRecords _ 0 pre.length _ _ hget
      (by simpa using hrec)
  · have hget : (pre ++ '\u2764' :: '\uFE0F' :: post).get? (pre.length + 1) =
        some '\uFE0F' := by
      rw [List.get?_append_right (Nat.le_add_right pre.length 1)]
      simp
    have hrec : convertRecord nfd true (pre.length + 1) '\uFE0F' =
        some ⟨['\uFE0F'], ['?'], ((pre.length + 1 : Nat) : Int), false⟩ := by
      unfold convertRecord
      rw [if_neg (by decide), if_neg (by decide)]
      have h3 : UNICODE_TO_GSM_MAP.lookup '\uFE0F' = none := by decide
      rw [h3]
      dsimp only
      rw [h2]
      dsimp only
      rw [if_neg (by decide)]
    show _ ∈ convertRecords nfd true 0 _
    exact convertRecord_mem_convertRecords _ 0 (pre.length + 1) _ _ hget
      (by simpa using hrec)

/-- Claim C10 witness: the bare two-character heart-emoji text itself, with
preservation enabled, yields two question-mark records at positions 0
and 1. -/
theorem heart_emoji_never_preserved_witness :
    Replacement.mk ['\u2764'] ['?'] (0 : Int) false ∈
      (convert_to_gsm nfd_strip_id ['\u2764', '\uFE0F'] true none).replacements ∧
    Replacement.mk ['\uFE0F'] ['?'] (1 : Int) false ∈
      (convert_to_gsm nfd_strip_id ['\u2764', '\uFE0F'] true none).replacements := by
  have h := heart_emoji_never_preserved nfd_strip_id [] [] rfl rfl
  exact ⟨by simpa using h.2.1, by simpa using h.2.2⟩

/-- Claim C8 counterexample: not every substitution-table key maps to a
non-empty replacement — the zero-width space (and the word joiner and the
zero-width no-break space) maps to the empty string, i.e. it is removed
rather than replaced. -/
theorem substitution_value_empty_exists :
    ¬ (∀ p ∈ UNICODE_TO_GSM_MAP, p.2 ≠ []) := by
  intro h
  exact h ('\u200B', []) (by decide) rfl

/-- Claim C8 (amended): every substitution-table entry maps to a replacement
consisting only of GSM-safe characters, no key is itself GSM-safe, and
the replacement is empty only for the three removed characters U+200B,
U+2060 and U+FEFF. -/
theorem substitution_table_invariants :
    ∀ p ∈ UNICODE_TO_GSM_MAP,
      (∀ ch ∈ p.2, is_gsm_character ch = true) ∧
      is_gsm_character p.1 = false ∧
      (p.2 = [] → p.1 ∈ ['\u200B', '\u2060', '\uFEFF']) := by
  decide

/-- Claim C8 witness: the left double quotation mark entry maps to the GSM-safe
double quote and is itself not GSM-safe. -/
theorem substitution_table_invariants_witness :
    is_gsm_character '\x22' = true ∧ is_gsm_character '“' = false :=
  ⟨(substitution_table_invariants ('“', ['\x22']) (by decide)).1 '\x22' (by decide),
    (substitution_table_invariants ('“', ['\x22']) (by decide)).2.1⟩
